import Mathlib

/-!
Verification of the Content Compliance Validator (test_validate.py).

The Python source is shallowly embedded: strings are Lean `String`
(lists of unicode code points, matching Python's code-point strings),
`Optional[str]` is `Option String`, dicts with fixed keys are either
structures or association lists preserving Python's insertion order.
BeautifulSoup's parse tree is modelled by the `Node` inductive, and the
permissive `html.parser` behaviour by an executable tokenizer/builder.
Regular-expression searches are embedded as executable Boolean matchers
over the character list, faithful to the pattern's backtracking
existence semantics (noted where a greedy simplification is exact).
Character classes follow the ASCII behaviour of Lean's Char primitives;
the concrete inputs below are ASCII, where Python agrees.
-/

/-- Python whitespace (the set matched by `\s` and stripped by `str.strip`):
ASCII whitespace, the C1 separators, NEL, NBSP and the Unicode space
separators. -/
def pyWs (c : Char) : Bool :=
  c = ' ' || c = '\t' || c = '\n' || c = '\r' ||
  c = Char.ofNat 11 || c = Char.ofNat 12 ||
  c = Char.ofNat 28 || c = Char.ofNat 29 || c = Char.ofNat 30 || c = Char.ofNat 31 ||
  c = Char.ofNat 133 || c = Char.ofNat 160 || c = Char.ofNat 5760 ||
  (decide (8192 ≤ c.toNat) && decide (c.toNat ≤ 8202)) ||
  c = Char.ofNat 8232 || c = Char.ofNat 8233 || c = Char.ofNat 8239 ||
  c = Char.ofNat 8287 || c = Char.ofNat 12288

/-- `str.lstrip()` on the character list. -/
def lstripWs (cs : List Char) : List Char := cs.dropWhile pyWs

/-- `str.rstrip()` on the character list. -/
def rstripWs (cs : List Char) : List Char := (cs.reverse.dropWhile pyWs).reverse

/-- `str.strip()` on the character list. -/
def stripWs (cs : List Char) : List Char := rstripWs (lstripWs cs)

/-- `str.strip()` as a String operation. -/
def pyStrip (s : String) : String := ⟨stripWs s.data⟩

/-- `str.lower()` (ASCII case folding, as Lean's Char.toLower). -/
def lowerList (cs : List Char) : List Char := cs.map Char.toLower

/-- `str.lower()` as a String operation. -/
def lowerStr (s : String) : String := ⟨lowerList s.data⟩

/-- Python truthiness of a string: non-empty. -/
def pyTruthy (s : String) : Bool := !(s.data.isEmpty)

/-- Python truthiness of `Optional[str]`. -/
def pyTruthyO : Option String → Bool
  | none => false
  | some s => pyTruthy s

/-- `x or ""` applied to an `Optional[str]`, as used by the driver loop. -/
def pyOrEmpty : Option String → String
  | none => ""
  | some s => if pyTruthy s then s else ""

/-- Collapse every maximal run of spaces to a single space.  Together with
the whitespace-to-space map below this embeds Python's
`re.sub(r"\s+", " ", s)`: the regex rewrites each maximal whitespace run
to one space, which equals mapping every whitespace character to a space
and then collapsing adjacent spaces. -/
def squeezeSpaces : List Char → List Char
  | [] => []
  | a :: rest =>
    match rest with
    | [] => [a]
    | b :: _ => if a = ' ' ∧ b = ' ' then squeezeSpaces rest else a :: squeezeSpaces rest

/-- `re.sub(r"\s+", " ", s)` on the character list. -/
def subWsRuns (cs : List Char) : List Char :=
  squeezeSpaces (cs.map fun c => if pyWs c then ' ' else c)

/-- `normalize_whitespace` from the source:
`re.sub(r"\s+", " ", s).strip()`. -/
def normalize_whitespace (s : String) : String := ⟨stripWs (subWsRuns s.data)⟩

/-- `is_all_caps` from the source.  The Python float comparison
`upper/len(letters) >= 0.9` is embedded as the exact rational comparison
`10*upper ≥ 9*len`; for the list lengths any real text has the two agree
(the nearest double to 0.9 differs from 9/10 by about 2e-17). -/
def is_all_caps (s : String) : Bool :=
  let letters := s.data.filter Char.isAlpha
  if letters.isEmpty then false
  else decide (9 * letters.length ≤ 10 * (letters.filter Char.isUpper).length)

/-- One character of the EMOJI_RE character class (the listed pictograph,
emoticon and symbol code-point ranges). -/
def isEmojiChar (c : Char) : Bool :=
  (decide (0x1F300 ≤ c.toNat) && decide (c.toNat ≤ 0x1F5FF)) ||
  (decide (0x1F600 ≤ c.toNat) && decide (c.toNat ≤ 0x1F64F)) ||
  (decide (0x1F680 ≤ c.toNat) && decide (c.toNat ≤ 0x1F6FF)) ||
  (decide (0x1F700 ≤ c.toNat) && decide (c.toNat ≤ 0x1F77F)) ||
  (decide (0x1F780 ≤ c.toNat) && decide (c.toNat ≤ 0x1F7FF)) ||
  (decide (0x1F800 ≤ c.toNat) && decide (c.toNat ≤ 0x1F8FF)) ||
  (decide (0x1F900 ≤ c.toNat) && decide (c.toNat ≤ 0x1F9FF)) ||
  (decide (0x1FA00 ≤ c.toNat) && decide (c.toNat ≤ 0x1FAFF)) ||
  (decide (0x2600 ≤ c.toNat) && decide (c.toNat ≤ 0x27BF))

/-- `EMOJI_RE.search(t)` succeeds iff some character is in the class. -/
def emojiSearch (s : String) : Bool := s.data.any isEmojiChar

/-- First index at which `pat` occurs in `hay` (Python `str.find`,
with `none` for Python's -1). -/
def strFind (hay pat : List Char) : Option Nat :=
  match hay with
  | [] => if pat.isEmpty then some 0 else none
  | _ :: rest => if pat.isPrefixOf hay then some 0 else (strFind rest pat).map (· + 1)

/-- An apostrophe character (U+0027), used by the spam pattern. -/
def apos : Char := Char.ofNat 39

/-- Tokens of the SPAM_RE alternatives: literal text, a greedy
whitespace star, or an optional single character. -/
inductive RTok where
  | lit : List Char → RTok
  | wsStar : RTok
  | optChar : Char → RTok

/-- Match a token sequence at the start of `cs`.  `wsStar` is taken
greedily, which is exact for SPAM_RE because every token after a
whitespace star there begins with a non-whitespace literal character;
`optChar` backtracks over both choices. -/
def matchSeq : List RTok → List Char → Bool
  | [], _ => true
  | RTok.lit p :: ps, cs => p.isPrefixOf cs && matchSeq ps (cs.drop p.length)
  | RTok.wsStar :: ps, cs => matchSeq ps (cs.dropWhile pyWs)
  | RTok.optChar c :: ps, cs =>
    match cs with
    | d :: rest => (d == c && matchSeq ps rest) || matchSeq ps cs
    | [] => matchSeq ps []

/-- The alternatives of SPAM_RE
`(?:FREE|BEST\s*DEAL|TOP\s*RATED|100%|GUARANTEED|CLICK|SALE!?|CHEAP|HOT\s*DEAL|DON'?T\s*MISS)`,
lower-cased since the IGNORECASE search is run on the folded text. -/
def SPAM_PATTERNS : List (List RTok) :=
  [ [RTok.lit "free".data],
    [RTok.lit "best".data, RTok.wsStar, RTok.lit "deal".data],
    [RTok.lit "top".data, RTok.wsStar, RTok.lit "rated".data],
    [RTok.lit "100%".data],
    [RTok.lit "guaranteed".data],
    [RTok.lit "click".data],
    [RTok.lit "sale".data, RTok.optChar '!'],
    [RTok.lit "cheap".data],
    [RTok.lit "hot".data, RTok.wsStar, RTok.lit "deal".data],
    [RTok.lit "don".data, RTok.optChar apos, RTok.lit "t".data, RTok.wsStar,
      RTok.lit "miss".data] ]

/-- Search for any SPAM_RE alternative at any position of the folded text. -/
def spamSearchAux : List Char → Bool
  | [] => SPAM_PATTERNS.any fun p => matchSeq p []
  | c :: cs => (SPAM_PATTERNS.any fun p => matchSeq p (c :: cs)) || spamSearchAux cs

/-- `SPAM_RE.search(t)` (case-insensitive search embedded by folding). -/
def spamSearch (s : String) : Bool := spamSearchAux (lowerList s.data)

/-- `"  " in t`: some two consecutive characters are both spaces. -/
def hasDoubleSpace : List Char → Bool
  | a :: b :: rest => (a = ' ' && b = ' ') || hasDoubleSpace (b :: rest)
  | _ => false

/-- The three-valued outcome stored in the checks mapping: Python
`True`, `False`, or the string `"not_evaluated"`. -/
inductive CheckVal where
  | tt : CheckVal
  | ff : CheckVal
  | notEval : CheckVal
deriving DecidableEq, Repr

/-- Inject a Python bool into the checks value type. -/
def ofBool : Bool → CheckVal
  | true => CheckVal.tt
  | false => CheckVal.ff

/-- The `for key, ok in checks.items(): if ok is False: violations.append(key)`
loop: names of the checks whose outcome is `False`, in mapping order. -/
def falseKeys (checks : List (String × CheckVal)) : List String :=
  (checks.filter fun p => p.2 == CheckVal.ff).map Prod.fst

/-- Dict lookup in the checks mapping. -/
def lookupCheck (name : String) (checks : List (String × CheckVal)) : Option CheckVal :=
  (checks.find? fun p => p.1 == name).map Prod.snd

/-- Result dict of `validate_title`. -/
structure TitleReport where
  pass : Bool
  checks : List (String × CheckVal)
  violations : List String
deriving DecidableEq, Repr

/-- `t.lower().lstrip()`, `brand.lower().strip()`, then
`tb.startswith(br) or (tb.find(br) != -1 and tb.find(br) <= 12)`. -/
def startsWithBrandCode (t brand : String) : Bool :=
  let tb := lowerList (lstripWs t.data)
  let br := lowerList (stripWs brand.data)
  br.isPrefixOf tb ||
    (match strFind tb br with
     | some i => decide (i ≤ 12)
     | none => false)

/-- The value stored at `starts_with_brand`: `not_evaluated` unless the
brand hint is truthy. -/
def startsWithBrandOutcome (t : String) (brand : Option String) : CheckVal :=
  match brand with
  | none => CheckVal.notEval
  | some b => if pyTruthy b then ofBool (startsWithBrandCode t b) else CheckVal.notEval

/-- The checks dict built by `validate_title` in the non-missing branch,
in Python insertion order.  `present` is `bool(title)`, which is `True`
on this branch. -/
def titleChecks (t : String) (brand : Option String) : List (String × CheckVal) :=
  [("present", CheckVal.tt),
   ("length_le_80", ofBool (decide (t.data.length ≤ 80))),
   ("length_ge_10", ofBool (decide (10 ≤ (stripWs t.data).length))),
   ("one_line", ofBool (!(t.data.contains '\n') && !(t.data.contains '\r'))),
   ("no_double_spaces", ofBool (!(hasDoubleSpace t.data))),
   ("no_emoji", ofBool (!(emojiSearch t))),
   ("no_spam_words", ofBool (!(spamSearch t))),
   ("not_all_caps", ofBool (!(is_all_caps t))),
   ("starts_with_brand", startsWithBrandOutcome t brand)]

/-- The early return of `validate_title` on a falsy title: checks keep
their initialisation (`present` is `bool(title) = False`). -/
def missingTitleReport : TitleReport :=
  { pass := false,
    checks :=
      [("present", CheckVal.ff), ("length_le_80", CheckVal.ff),
       ("length_ge_10", CheckVal.ff), ("one_line", CheckVal.ff),
       ("no_double_spaces", CheckVal.ff), ("no_emoji", CheckVal.ff),
       ("no_spam_words", CheckVal.ff), ("not_all_caps", CheckVal.ff),
       ("starts_with_brand", CheckVal.notEval)],
    violations := ["missing_title"] }

/-- `validate_title` from the source. -/
def validate_title (title : Option String) (brand : Option String) : TitleReport :=
  match title with
  | none => missingTitleReport
  | some t =>
    if pyTruthy t then
      { pass := (titleChecks t brand).all fun p =>
          p.2 == CheckVal.tt || p.2 == CheckVal.notEval,
        checks := titleChecks t brand,
        violations := falseKeys (titleChecks t brand) }
    else missingTitleReport

/-- A node of the BeautifulSoup parse tree: a NavigableString or a Tag
with its children. -/
inductive Node where
  | text : String → Node
  | elem : String → List Node → Node
deriving Repr

/-- The tag name of a node ("" for a string node; `find_all` only ever
yields Tag nodes). -/
def elemName : Node → String
  | Node.text _ => ""
  | Node.elem n _ => n

mutual

/-- Tags of one node in document order: the node itself (if a Tag)
followed by its descendants. -/
def allElemsN : Node → List Node
  | Node.text _ => []
  | Node.elem n ch => Node.elem n ch :: allElems ch

/-- `soup.find_all()` in document order: every Tag, pre-order. -/
def allElems : List Node → List Node
  | [] => []
  | x :: xs => allElemsN x ++ allElems xs

end

mutual

/-- NavigableStrings below one node, in document order. -/
def nodeTextsN : Node → List String
  | Node.text s => [s]
  | Node.elem _ ch => nodeTexts ch

/-- All NavigableStrings of a forest, in document order. -/
def nodeTexts : List Node → List String
  | [] => []
  | x :: xs => nodeTextsN x ++ nodeTexts xs

end

/-- `tag.get_text(" ")`: the strings below the node joined by spaces. -/
def getTextSep : Node → String
  | Node.text s => s
  | Node.elem _ ch => String.intercalate " " (nodeTexts ch)

/-- `get_all_tags`: names of all tags in document order. -/
def get_all_tags (soup : List Node) : List String :=
  (allElems soup).map elemName

/-- `count_bullets`: `len(soup.find_all("li"))`. -/
def count_bullets (soup : List Node) : Nat :=
  ((allElems soup).filter fun e => elemName e == "li").length

/-- `first_paragraph_len`: length of the normalized text of the first
`p` tag, 0 when there is none. -/
def first_paragraph_len (soup : List Node) : Nat :=
  match (allElems soup).find? (fun e => elemName e == "p") with
  | none => 0
  | some e => (normalize_whitespace (getTextSep e)).data.length

/-- The fixed disallowed tag set. -/
def DISALLOWED_TAGS : List String :=
  ["script", "iframe", "object", "embed", "applet", "form", "input", "button",
   "video", "audio", "canvas", "svg", "style", "link", "meta"]

/-- The fixed allow-listed tag set. -/
def ALLOWED_TAGS : List String :=
  ["b", "strong", "br", "ol", "ul", "li", "table", "tr", "td", "th", "thead",
   "tbody", "tfoot", "caption", "colgroup", "col"]

/-- Structural wrapper tags the checks ignore. -/
def NEUTRAL_TAGS : List String := ["html", "body"]

/-- Insertion of a string into a sorted list (Python `sorted` on the
deduplicated elements). -/
def insSorted (x : String) : List String → List String
  | [] => [x]
  | y :: ys => if x ≤ y then x :: y :: ys else y :: insSorted x ys

/-- Insertion sort on strings. -/
def sortStrs : List String → List String
  | [] => []
  | x :: xs => insSorted x (sortStrs xs)

/-- `has_disallowed_tags`: `sorted` of the set of lower-cased tag names
that are in DISALLOWED_TAGS. -/
def has_disallowed_tags (soup : List Node) : List String :=
  sortStrs ((((allElems soup).map fun e => lowerStr (elemName e)).filter
    fun n => DISALLOWED_TAGS.contains n).dedup)

/-- `only_allowed_tags`: `sorted` of the set of lower-cased tag names
that are neither neutral nor allow-listed. -/
def only_allowed_tags (soup : List Node) : List String :=
  sortStrs ((((allElems soup).map fun e => lowerStr (elemName e)).filter
    fun n => !(NEUTRAL_TAGS.contains n) && !(ALLOWED_TAGS.contains n)).dedup)

/-- `\w` of the email pattern (ASCII approximation of Python word chars). -/
def isWordChar (c : Char) : Bool := c.isAlphanum || c = '_'

/-- A character of the `[\w\.-]` class. -/
def isLocalChar (c : Char) : Bool := isWordChar c || c = '.' || c = '-'

/-- After the final dot the pattern needs `\w{2,}\b`: with backtracking
this is satisfiable exactly when the maximal word-character run has
length at least 2. -/
def wordRunGe2 (cs : List Char) : Bool :=
  decide (2 ≤ (cs.takeWhile isWordChar).length)

/-- The part of the email pattern after the at-sign, `[\w\.-]+\.\w{2,}\b`:
some dot position `p ≥ 1` with local characters before it and a word run
of length at least 2 after it. -/
def emailTail (cs : List Char) : Bool :=
  (List.range cs.length).any fun p =>
    decide (1 ≤ p) && (cs.take p).all isLocalChar &&
      (cs.getD p ' ' == '.') && wordRunGe2 (cs.drop (p + 1))

/-- `re.search(r"\b[\w\.-]+@[\w\.-]+\.\w{2,}\b", text)`: an at-sign with a
local part before it starting at a word boundary, and a domain part after
it.  The existential over start positions embeds the regex engine's scan
and backtracking. -/
def emailSearch (cs : List Char) : Bool :=
  (List.range cs.length).any fun i =>
    (cs.getD i ' ' == '@') &&
    ((List.range i).any fun j =>
      ((cs.drop j).take (i - j)).all isLocalChar &&
      (isWordChar (cs.getD j ' ') !=
        (decide (0 < j) && isWordChar (cs.getD (j - 1) ' ')))) &&
    emailTail (cs.drop (i + 1))

/-- `re.search(r"https?://", text, re.IGNORECASE)`: the folded text
contains "http://" or "https://". -/
def httpSearch (s : String) : Bool :=
  let l := lowerList s.data
  (strFind l "http://".data).isSome || (strFind l "https://".data).isSome

/-- `contains_external_links` from the source. -/
def contains_external_links (s : String) : Bool :=
  httpSearch s || emailSearch s.data

/-- Tokens produced by the permissive HTML tokenizer. -/
inductive Tok where
  | openT : String → Tok
  | closeT : String → Tok
  | selfT : String → Tok
  | textT : String → Tok
deriving Repr

/-- Characters ending a tag name inside markup. -/
def isNameEnd (c : Char) : Bool :=
  c = '>' || c = '/' || c = ' ' || c = '\t' || c = '\n' || c = '\r'

/-- Permissive tokenizer for the `html.parser` markup events: start tags,
end tags, self-closing tags and text.  Attributes are skipped, tag names
lower-cased (as `html.parser` does); a stray `<` becomes text.  `fuel`
bounds the recursion; each step consumes at least one character so the
input length suffices. -/
def tokenizeAux : Nat → List Char → List Tok
  | 0, _ => []
  | _ + 1, [] => []
  | fuel + 1, c :: cs =>
    if c = '<' then
      match cs with
      | '/' :: rest =>
        let name := rest.takeWhile fun d => !(isNameEnd d)
        let rest2 := (rest.dropWhile fun d => d ≠ '>').drop 1
        Tok.closeT (lowerStr ⟨name⟩) :: tokenizeAux fuel rest2
      | _ =>
        let name := cs.takeWhile fun d => !(isNameEnd d)
        if name.isEmpty then Tok.textT "<" :: tokenizeAux fuel cs
        else
          let afterName := cs.drop name.length
          let inside := afterName.takeWhile fun d => d ≠ '>'
          let rest2 := (afterName.dropWhile fun d => d ≠ '>').drop 1
          if inside.getLast? == some '/' then
            Tok.selfT (lowerStr ⟨name⟩) :: tokenizeAux fuel rest2
          else
            Tok.openT (lowerStr ⟨name⟩) :: tokenizeAux fuel rest2
    else
      Tok.textT ⟨(c :: cs).takeWhile fun d => d ≠ '<'⟩ ::
        tokenizeAux fuel ((c :: cs).dropWhile fun d => d ≠ '<')

/-- Tokenize a string. -/
def tokenize (s : String) : List Tok := tokenizeAux s.data.length s.data

/-- HTML void elements, which the tree builder closes immediately (as
BeautifulSoup's html.parser builder does for its empty-element tags). -/
def VOID_TAGS : List String :=
  ["br", "hr", "img", "input", "meta", "link", "col", "base", "area", "wbr",
   "embed", "source", "track", "param"]

/-- Close the innermost open elements up to and including the one named
`n`, wrapping the accumulated (reversed) children at each level. -/
def closeUntil (n : String) :
    List (String × List Node) → List Node → List (String × List Node) × List Node
  | [], cur => ([], cur)
  | (m, sib) :: fr, cur =>
    let node := Node.elem m cur.reverse
    if m == n then (fr, node :: sib) else closeUntil n fr (node :: sib)

/-- Close every still-open element at end of input. -/
def closeAll : List (String × List Node) → List Node → List Node
  | [], cur => cur.reverse
  | (n, sib) :: fr, cur => closeAll fr (Node.elem n cur.reverse :: sib)

/-- Is some frame on the open-element stack named `n`? -/
def hasOpen (n : String) (frames : List (String × List Node)) : Bool :=
  frames.any fun f => f.1 == n

/-- Tree builder over the token stream: a stack of open elements with
their accumulated (reversed) children.  An end tag with no matching open
element is ignored, as BeautifulSoup does. -/
def buildAux : List Tok → List (String × List Node) → List Node → List Node
  | [], frames, cur => closeAll frames cur
  | t :: ts, frames, cur =>
    match t with
    | Tok.textT s => buildAux ts frames (Node.text s :: cur)
    | Tok.selfT n => buildAux ts frames (Node.elem n [] :: cur)
    | Tok.openT n =>
      if VOID_TAGS.contains n then buildAux ts frames (Node.elem n [] :: cur)
      else buildAux ts ((n, cur) :: frames) []
    | Tok.closeT n =>
      if hasOpen n frames then
        let (fr, cur2) := closeUntil n frames cur
        buildAux ts fr cur2
      else buildAux ts frames cur

/-- `BeautifulSoup(s, "html.parser")`. -/
def parseHTML (s : String) : List Node := buildAux (tokenize s) [] []

/-- Result dict of `validate_description`.  The early return on a falsy
description carries no diagnostic keys, hence the Option fields. -/
structure DescReport where
  pass : Bool
  checks : List (String × CheckVal)
  violations : List String
  found_disallowed_tags : Option (List String)
  found_non_whitelisted_tags : Option (List String)
  lead_paragraph_length : Option Nat
  bullet_count : Option Nat
deriving Repr

/-- The parse tree used by `validate_description`: the description is
stripped and then parsed. -/
def descSoup (s : String) : List Node := parseHTML (pyStrip s)

/-- The checks dict built by `validate_description` in the non-missing
branch, in Python insertion order.  `present` is `bool(html)`, `True`
on this branch. -/
def descChecks (s : String) : List (String × CheckVal) :=
  let h := stripWs s.data
  [("present", CheckVal.tt),
   ("length_40_to_4000", ofBool (decide (40 ≤ h.length) && decide (h.length ≤ 4000))),
   ("lead_paragraph_ok", ofBool (decide (40 ≤ first_paragraph_len (descSoup s)))),
   ("bullet_count_3_to_8", ofBool (decide (3 ≤ count_bullets (descSoup s)) &&
      decide (count_bullets (descSoup s) ≤ 8))),
   ("no_disallowed_tags", ofBool ((has_disallowed_tags (descSoup s)).isEmpty)),
   ("only_allowed_tags", ofBool ((only_allowed_tags (descSoup s)).isEmpty)),
   ("no_external_links", ofBool (!(contains_external_links (pyStrip s))))]

/-- The early return of `validate_description` on a falsy description. -/
def missingDescReport : DescReport :=
  { pass := false,
    checks :=
      [("present", CheckVal.ff), ("length_40_to_4000", CheckVal.ff),
       ("lead_paragraph_ok", CheckVal.ff), ("bullet_count_3_to_8", CheckVal.ff),
       ("no_disallowed_tags", CheckVal.ff), ("only_allowed_tags", CheckVal.ff),
       ("no_external_links", CheckVal.ff)],
    violations := ["missing_description"],
    found_disallowed_tags := none,
    found_non_whitelisted_tags := none,
    lead_paragraph_length := none,
    bullet_count := none }

/-- `validate_description` from the source. -/
def validate_description (html : Option String) : DescReport :=
  match html with
  | none => missingDescReport
  | some s =>
    if pyTruthy s then
      { pass := (descChecks s).all fun p => p.2 == CheckVal.tt,
        checks := descChecks s,
        violations := falseKeys (descChecks s),
        found_disallowed_tags := some (has_disallowed_tags (descSoup s)),
        found_non_whitelisted_tags := some (only_allowed_tags (descSoup s)),
        lead_paragraph_length := some (first_paragraph_len (descSoup s)),
        bullet_count := some (count_bullets (descSoup s)) }
    else missingDescReport

/-- One row of the results JSON consumed by the driver loop. -/
structure InputRow where
  input_id : Option String
  model : Option String
  ok : Option Bool
  ebay_title : Option String
  ebay_description_html : Option String
  input_tokens : Option Int
  output_tokens : Option Int
  total_tokens : Option Int

/-- One validated output row produced by the driver loop. -/
structure ValidationRecord where
  input_id : String
  model : Option String
  ok_original : Option Bool
  overall_pass : Bool
  title_value : String
  title_report : TitleReport
  description_length : Nat
  description_preview : String
  description_report : DescReport
  input_tokens : Option Int
  output_tokens : Option Int
  total_tokens : Option Int

/-- The body of the driver loop in `main`: per-record aggregation of the
two rule-set reports plus pass-through metadata. -/
def validateRecord (brandMap : List (String × String)) (row : InputRow) : ValidationRecord :=
  let input_id := pyOrEmpty row.input_id
  let brand := brandMap.lookup input_id
  let title := pyOrEmpty row.ebay_title
  let desc := pyOrEmpty row.ebay_description_html
  let tr := validate_title (some title) brand
  let dr := validate_description (some desc)
  { input_id := input_id,
    model := row.model,
    ok_original := row.ok,
    overall_pass := tr.pass && dr.pass,
    title_value := title,
    title_report := tr,
    description_length := desc.data.length,
    description_preview :=
      if decide (160 < desc.data.length) then ⟨desc.data.take 160⟩ ++ "…" else desc,
    description_report := dr,
    input_tokens := row.input_tokens,
    output_tokens := row.output_tokens,
    total_tokens := row.total_tokens }

/-- A line-break character as the spec's `one_line` row means it:
newline or carriage return (the characters the code tests for). -/
def isLineBreak (c : Char) : Bool := c = '\n' || c = '\r'

/-- The brand condition exactly as claim C5 words it (refinement
comparison definition, following the spec text rather than the source):
the lower-cased left-trimmed title starts with the lower-cased brand, or
that brand occurs within the first 12 characters (first occurrence at
index at most 12).  Unlike the source it does not strip whitespace from
the brand. -/
def startsWithBrandClaim (t brand : String) : Bool :=
  let tb := lowerList (lstripWs t.data)
  let br := lowerList brand.data
  br.isPrefixOf tb ||
    (match strFind tb br with
     | some i => decide (i ≤ 12)
     | none => false)

/- ------------------------------------------------------------------ -/
/- Helper lemmas                                                      -/
/- ------------------------------------------------------------------ -/

theorem ofBool_eq_tt {b : Bool} : ofBool b = CheckVal.tt ↔ b = true := by
  cases b <;> simp [ofBool]

theorem ofBool_eq_ff {b : Bool} : ofBool b = CheckVal.ff ↔ b = false := by
  cases b <;> simp [ofBool]

theorem pyTruthy_iff (t : String) : pyTruthy t = true ↔ t ≠ "" := by
  obtain ⟨d⟩ := t
  cases d <;> simp [pyTruthy, String.ext_iff]

theorem mem_insSorted {a x : String} {l : List String} :
    a ∈ insSorted x l ↔ a = x ∨ a ∈ l := by
  induction l with
  | nil => simp [insSorted]
  | cons y ys ih =>
    by_cases h : x ≤ y
    · simp [insSorted, h]
    · simp [insSorted, h, ih]
      tauto

theorem mem_sortStrs {a : String} {l : List String} :
    a ∈ sortStrs l ↔ a ∈ l := by
  induction l with
  | nil => simp [sortStrs]
  | cons x xs ih => simp [sortStrs, mem_insSorted, ih]

theorem falseKeys_subset {checks : List (String × CheckVal)} {nm : String}
    (h : nm ∈ falseKeys checks) : nm ∈ checks.map Prod.fst := by
  unfold falseKeys at h
  rcases List.mem_map.mp h with ⟨pr, hpr, he⟩
  exact he ▸ List.mem_map_of_mem _ (List.mem_of_mem_filter hpr)

theorem lookup_of_mem_falseKeys :
    ∀ {checks : List (String × CheckVal)}, (checks.map Prod.fst).Nodup →
      ∀ {nm}, nm ∈ falseKeys checks → lookupCheck nm checks = some CheckVal.ff := by
  intro checks
  induction checks with
  | nil => intro _ nm h; simp [falseKeys] at h
  | cons kv rest ih =>
    intro hnd nm h
    obtain ⟨k, v⟩ := kv
    rw [List.map_cons, List.nodup_cons] at hnd
    unfold falseKeys at h
    rw [List.filter_cons] at h
    by_cases hv : (v == CheckVal.ff) = true
    · rw [if_pos hv, List.map_cons] at h
      rcases List.mem_cons.mp h with h | h
      · subst h
        simp only [lookupCheck, List.find?, beq_self_eq_true]
        simpa using eq_of_beq hv
      · have hnm : nm ∈ rest.map Prod.fst := falseKeys_subset h
        have hk : ¬(k == nm) = true := by
          intro hb; exact hnd.1 ((eq_of_beq hb) ▸ hnm)
        simp only [lookupCheck, List.find?]
        rw [Bool.of_not_eq_true hk]
        exact ih hnd.2 h
    · rw [if_neg hv] at h
      have hnm : nm ∈ rest.map Prod.fst := falseKeys_subset h
      have hk : ¬(k == nm) = true := by
        intro hb; exact hnd.1 ((eq_of_beq hb) ▸ hnm)
      simp only [lookupCheck, List.find?]
      rw [Bool.of_not_eq_true hk]
      exact ih hnd.2 h

theorem all_tt_false_of_lookup_ff {checks : List (String × CheckVal)} {nm : String}
    (h : lookupCheck nm checks = some CheckVal.ff) :
    (checks.all fun p => p.2 == CheckVal.tt) = false := by
  unfold lookupCheck at h
  rcases Option.map_eq_some'.mp h with ⟨pr, hf, hsnd⟩
  have hmem := List.mem_of_find?_eq_some hf
  cases hall : checks.all fun p => p.2 == CheckVal.tt
  · rfl
  · exfalso
    have := List.all_eq_true.mp hall pr hmem
    rw [hsnd] at this
    exact absurd (eq_of_beq this) (by simp)

theorem validate_title_truthy {t : String} (h : pyTruthy t = true) (b : Option String) :
    validate_title (some t) b =
      { pass := (titleChecks t b).all fun p =>
          p.2 == CheckVal.tt || p.2 == CheckVal.notEval,
        checks := titleChecks t b,
        violations := falseKeys (titleChecks t b) } := by
  simp [validate_title, h]

theorem validate_title_falsy {t : String} (h : pyTruthy t = false) (b : Option String) :
    validate_title (some t) b = missingTitleReport := by
  simp [validate_title, h]

theorem validate_description_truthy {s : String} (h : pyTruthy s = true) :
    validate_description (some s) =
      { pass := (descChecks s).all fun p => p.2 == CheckVal.tt,
        checks := descChecks s,
        violations := falseKeys (descChecks s),
        found_disallowed_tags := some (has_disallowed_tags (descSoup s)),
        found_non_whitelisted_tags := some (only_allowed_tags (descSoup s)),
        lead_paragraph_length := some (first_paragraph_len (descSoup s)),
        bullet_count := some (count_bullets (descSoup s)) } := by
  simp [validate_description, h]

theorem validate_description_falsy {s : String} (h : pyTruthy s = false) :
    validate_description (some s) = missingDescReport := by
  simp [validate_description, h]

theorem lookup_lead (s : String) :
    lookupCheck "lead_paragraph_ok" (descChecks s) =
      some (ofBool (decide (40 ≤ first_paragraph_len (descSoup s)))) := rfl

theorem lookup_only (s : String) :
    lookupCheck "only_allowed_tags" (descChecks s) =
      some (ofBool ((only_allowed_tags (descSoup s)).isEmpty)) := rfl

theorem lookup_one_line (s : String) (b : Option String) :
    lookupCheck "one_line" (titleChecks s b) =
      some (ofBool (!(s.data.contains '\n') && !(s.data.contains '\r'))) := rfl

theorem lookup_brand (s : String) (b : Option String) :
    lookupCheck "starts_with_brand" (titleChecks s b) =
      some (startsWithBrandOutcome s b) := rfl

theorem only_allowed_nonempty_of_lead {soup : List Node}
    (h : 40 ≤ first_paragraph_len soup) :
    (only_allowed_tags soup).isEmpty = false := by
  unfold first_paragraph_len at h
  cases hfind : (allElems soup).find? fun e => elemName e == "p" with
  | none =>
    rw [hfind] at h
    change 40 ≤ 0 at h
    omega
  | some e =>
    have hpred := List.find?_some hfind
    have hmem := List.mem_of_find?_eq_some hfind
    have hname : elemName e = "p" := eq_of_beq hpred
    have hmap : "p" ∈ (allElems soup).map fun e => lowerStr (elemName e) := by
      refine List.mem_map.mpr ⟨e, hmem, ?_⟩
      show lowerStr (elemName e) = "p"
      rw [hname]
      rfl
    have hfil : "p" ∈ ((allElems soup).map fun e => lowerStr (elemName e)).filter
        fun n => !(NEUTRAL_TAGS.contains n) && !(ALLOWED_TAGS.contains n) :=
      List.mem_filter.mpr ⟨hmap, by decide⟩
    have hsor : "p" ∈ only_allowed_tags soup := by
      unfold only_allowed_tags
      exact mem_sortStrs.mpr (List.mem_dedup.mpr hfil)
    cases hl : only_allowed_tags soup with
    | nil => rw [hl] at hsor; simp at hsor
    | cons a as => rfl

theorem neutral_not_mem_only_allowed {soup : List Node} {nm : String}
    (hn : nm ∈ NEUTRAL_TAGS) : nm ∉ only_allowed_tags soup := by
  intro hmem
  unfold only_allowed_tags at hmem
  have hfil := List.mem_dedup.mp (mem_sortStrs.mp hmem)
  have hcond := (List.mem_filter.mp hfil).2
  rw [Bool.and_eq_true, Bool.not_eq_true', Bool.not_eq_true'] at hcond
  have : NEUTRAL_TAGS.contains nm = true := List.elem_eq_true_of_mem hn
  rw [this] at hcond
  exact absurd hcond.1 (by simp)

theorem mem_of_mem_squeezeSpaces :
    ∀ {l : List Char} {c : Char}, c ∈ squeezeSpaces l → c ∈ l := by
  intro l
  induction l with
  | nil => intro c h; simp [squeezeSpaces] at h
  | cons a rest ih =>
    intro c h
    cases rest with
    | nil => simpa [squeezeSpaces] using h
    | cons b t =>
      rw [squeezeSpaces] at h
      by_cases hab : a = ' ' ∧ b = ' '
      · rw [if_pos hab] at h
        exact List.mem_cons_of_mem a (ih h)
      · rw [if_neg hab] at h
        rcases List.mem_cons.mp h with h | h
        · exact h ▸ List.mem_cons_self a (b :: t)
        · exact List.mem_cons_of_mem a (ih h)

theorem squeezeSpaces_headq :
    ∀ (b : Char) (t : List Char),
      (squeezeSpaces (b :: t)).head? = some (if b = ' ' then ' ' else b) := by
  intro b t
  induction t generalizing b with
  | nil => by_cases hb : b = ' ' <;> simp [squeezeSpaces, hb]
  | cons c t ih =>
    rw [squeezeSpaces]
    by_cases hbc : b = ' ' ∧ c = ' '
    · rw [if_pos hbc, ih c, hbc.1, hbc.2]
    · rw [if_neg hbc]
      by_cases hb : b = ' ' <;> simp [hb]

theorem chain'_squeezeSpaces :
    ∀ (l : List Char),
      List.Chain' (fun a b => ¬(a = ' ' ∧ b = ' ')) (squeezeSpaces l) := by
  intro l
  induction l with
  | nil => simp [squeezeSpaces]
  | cons a rest ih =>
    cases rest with
    | nil => simp [squeezeSpaces]
    | cons b t =>
      rw [squeezeSpaces]
      by_cases hab : a = ' ' ∧ b = ' '
      · rwa [if_pos hab]
      · rw [if_neg hab]
        refine List.chain'_cons'.mpr ⟨?_, ih⟩
        intro y hy
        rw [squeezeSpaces_headq b t] at hy
        cases Option.some_inj.mp hy
        by_cases hb : b = ' '
        · rw [if_pos hb]
          intro hc
          exact hab ⟨hc.1, hb⟩
        · rw [if_neg hb]
          intro hc
          exact hb hc.2

theorem squeezeSpaces_eq_self :
    ∀ {l : List Char}, List.Chain' (fun a b => ¬(a = ' ' ∧ b = ' ')) l →
      squeezeSpaces l = l := by
  intro l
  induction l with
  | nil => intro _; rfl
  | cons a rest ih =>
    intro h
    cases rest with
    | nil => rfl
    | cons b t =>
      rw [squeezeSpaces, if_neg (List.chain'_cons.mp h).1]
      rw [ih (List.chain'_cons.mp h).2]

theorem takeWhile_dropWhile_nil {p : Char → Bool} :
    ∀ (l : List Char), (l.dropWhile p).takeWhile p = [] := by
  intro l
  induction l with
  | nil => rfl
  | cons a rest ih =>
    rw [List.dropWhile_cons]
    by_cases ha : p a = true
    · rw [if_pos ha]; exact ih
    · rw [if_neg ha, List.takeWhile_cons, if_neg ha]

theorem dropWhile_eq_self_of_takeWhile_nil {p : Char → Bool} {l : List Char}
    (h : l.takeWhile p = []) : l.dropWhile p = l := by
  cases l with
  | nil => rfl
  | cons a rest =>
    rw [List.takeWhile_cons] at h
    by_cases ha : p a = true
    · rw [if_pos ha] at h; exact absurd h (by simp)
    · rw [List.dropWhile_cons, if_neg ha]

theorem takeWhile_nil_of_front {p : Char → Bool} {l₁ l₂ : List Char}
    (hp : l₁ <+: l₂) (h : l₂.takeWhile p = []) : l₁.takeWhile p = [] := by
  cases l₁ with
  | nil => rfl
  | cons a rest =>
    cases l₂ with
    | nil => exact absurd (List.IsPrefix.subset hp (List.mem_cons_self a rest)) (by simp)
    | cons b t =>
      have hab : a = b := by
        rcases hp with ⟨u, hu⟩
        exact (List.cons.injEq a (rest ++ u) b t ▸ hu).1
      rw [List.takeWhile_cons] at h ⊢
      by_cases hb : p b = true
      · rw [if_pos hb] at h; exact absurd h (by simp)
      · rw [hab, if_neg hb]

theorem mapWs_eq_self {l : List Char}
    (h : ∀ c ∈ l, pyWs c = true → c = ' ') :
    (l.map fun c => if pyWs c then ' ' else c) = l := by
  induction l with
  | nil => rfl
  | cons a rest ih =>
    rw [List.map_cons, ih fun c hc => h c (List.mem_cons_of_mem a hc)]
    by_cases ha : pyWs a = true
    · rw [if_pos ha, h a (List.mem_cons_self a rest) ha]
    · rw [if_neg ha]

theorem subWsRuns_allWsSpace {cs : List Char} :
    ∀ c ∈ subWsRuns cs, pyWs c = true → c = ' ' := by
  intro c hc hw
  have hmem := mem_of_mem_squeezeSpaces hc
  rcases List.mem_map.mp hmem with ⟨a, _, ha⟩
  by_cases hpa : pyWs a = true
  · rw [if_pos hpa] at ha; exact ha.symm
  · rw [if_neg hpa] at ha; exact absurd (ha ▸ hw) hpa

theorem stripWs_front (l : List Char) : stripWs l <+: lstripWs l := by
  unfold stripWs rstripWs
  have hs : ((lstripWs l).reverse.dropWhile pyWs) <:+ (lstripWs l).reverse :=
    List.dropWhile_suffix pyWs
  have := List.reverse_prefix.mpr hs
  simpa using this

theorem stripWs_subset {l : List Char} : stripWs l ⊆ l := by
  intro c hc
  have h1 := List.IsPrefix.subset (stripWs_front l) hc
  exact List.IsSuffix.subset (List.dropWhile_suffix pyWs) h1

theorem chain'_stripWs {R : Char → Char → Prop} {l : List Char}
    (h : List.Chain' R l) : List.Chain' R (stripWs l) := by
  have h1 : List.Chain' R (lstripWs l) := h.suffix (List.dropWhile_suffix pyWs)
  exact h1.prefix (stripWs_front l)

theorem takeWhile_stripWs_nil (l : List Char) : (stripWs l).takeWhile pyWs = [] := by
  refine takeWhile_nil_of_front (stripWs_front l) ?_
  exact takeWhile_dropWhile_nil l

theorem takeWhile_reverse_stripWs_nil (l : List Char) :
    (stripWs l).reverse.takeWhile pyWs = [] := by
  unfold stripWs rstripWs
  rw [List.reverse_reverse]
  exact takeWhile_dropWhile_nil (lstripWs l).reverse

theorem stripWs_eq_self {l : List Char}
    (h1 : l.takeWhile pyWs = []) (h2 : l.reverse.takeWhile pyWs = []) :
    stripWs l = l := by
  unfold stripWs rstripWs lstripWs
  rw [dropWhile_eq_self_of_takeWhile_nil h1,
      dropWhile_eq_self_of_takeWhile_nil h2, List.reverse_reverse]

theorem chain'_ws_of_space {l : List Char}
    (h1 : ∀ c ∈ l, pyWs c = true → c = ' ')
    (h2 : List.Chain' (fun a b => ¬(a = ' ' ∧ b = ' ')) l) :
    List.Chain' (fun a b => ¬(pyWs a = true ∧ pyWs b = true)) l := by
  induction l with
  | nil => exact List.chain'_nil
  | cons a rest ih =>
    cases rest with
    | nil => simp
    | cons b t =>
      refine List.chain'_cons.mpr ⟨?_, ?_⟩
      · intro hc
        exact (List.chain'_cons.mp h2).1
          ⟨h1 a (List.mem_cons_self _ _) hc.1,
           h1 b (List.mem_cons_of_mem a (List.mem_cons_self _ _)) hc.2⟩
      · exact ih (fun c hc => h1 c (List.mem_cons_of_mem a hc))
          (List.chain'_cons.mp h2).2

/- ------------------------------------------------------------------ -/
/- Claim theorems                                                     -/
/- ------------------------------------------------------------------ -/

/-- C3 counterexample: on the description
`<ul><li>a</li><li>b</li><li>c</li><li>d</li></ul>` the claim asserts
`length_40_to_4000 == false`, but the stripped string has 49 characters,
inside [40, 4000], so the check is true, not false. -/
theorem C3_counterexample :
    ¬(lookupCheck "length_40_to_4000"
        (validate_description
          (some "<ul><li>a</li><li>b</li><li>c</li><li>d</li></ul>")).checks =
      some CheckVal.ff) := by
  intro h
  have h2 : lookupCheck "length_40_to_4000"
      (validate_description
        (some "<ul><li>a</li><li>b</li><li>c</li><li>d</li></ul>")).checks =
      some CheckVal.tt := rfl
  exact absurd (Option.some_inj.mp (h2 ▸ h.symm).symm) (by decide)

/-- C3 (amended): for the description
`<ul><li>a</li><li>b</li><li>c</li><li>d</li></ul>` (49 characters, in
range), validate_description returns `length_40_to_4000 == true`,
`lead_paragraph_ok == false`, `bullet_count_3_to_8 == true` and
`pass == false`. -/
theorem C3_list_only_description :
    lookupCheck "length_40_to_4000"
      (validate_description
        (some "<ul><li>a</li><li>b</li><li>c</li><li>d</li></ul>")).checks =
      some CheckVal.tt ∧
    lookupCheck "lead_paragraph_ok"
      (validate_description
        (some "<ul><li>a</li><li>b</li><li>c</li><li>d</li></ul>")).checks =
      some CheckVal.ff ∧
    lookupCheck "bullet_count_3_to_8"
      (validate_description
        (some "<ul><li>a</li><li>b</li><li>c</li><li>d</li></ul>")).checks =
      some CheckVal.tt ∧
    (validate_description
      (some "<ul><li>a</li><li>b</li><li>c</li><li>d</li></ul>")).pass = false ∧
    (pyStrip "<ul><li>a</li><li>b</li><li>c</li><li>d</li></ul>").data.length = 49 :=
  ⟨rfl, rfl, rfl, rfl, rfl⟩

/-- C4 counterexample: the claim asserts `no_spam_words == false` for the
title `fooBARFOOBARFOOBAR`, but no SPAM_RE alternative occurs in it (its
letters are only f, o, b, a, r), so the check is true, not false. -/
theorem C4_counterexample :
    ¬(lookupCheck "no_spam_words"
        (validate_title (some "fooBARFOOBARFOOBAR") none).checks =
      some CheckVal.ff) := by
  intro h
  have h2 : lookupCheck "no_spam_words"
      (validate_title (some "fooBARFOOBARFOOBAR") none).checks =
      some CheckVal.tt := rfl
  exact absurd (Option.some_inj.mp (h2 ▸ h.symm).symm) (by decide)

/-- C4 (amended): for the title `fooBARFOOBARFOOBAR`, validate_title
returns `no_spam_words == true`: the spam-phrase search finds no match. -/
theorem C4_no_spam_in_foobar :
    lookupCheck "no_spam_words"
      (validate_title (some "fooBARFOOBARFOOBAR") none).checks =
      some CheckVal.tt ∧
    spamSearch "fooBARFOOBARFOOBAR" = false :=
  ⟨rfl, rfl⟩

/-- C5 counterexample: for title `Acme Steel Water Bottle` with brand
hint ` Acme` (leading space) the code strips the brand and reports
`starts_with_brand == true`, while the claim's condition — which
lower-cases but does not trim the brand — is false, so the claimed
"if and only if" fails. -/
theorem C5_counterexample :
    lookupCheck "starts_with_brand"
      (validate_title (some "Acme Steel Water Bottle") (some " Acme")).checks =
      some CheckVal.tt ∧
    startsWithBrandClaim "Acme Steel Water Bottle" " Acme" = false :=
  ⟨rfl, rfl⟩

/-- C5 (amended): for every non-empty title, `starts_with_brand` is
`not_evaluated` when no truthy brand hint is given; with a truthy brand
hint it is true iff the lower-cased left-trimmed title starts with the
lower-cased whitespace-trimmed brand, or that trimmed brand first occurs
at character index at most 12 of the lower-cased left-trimmed title. -/
theorem C5_brand_check (t : String) (b : Option String) (h : t ≠ "") :
    lookupCheck "starts_with_brand" (validate_title (some t) b).checks =
      some (match b with
        | none => CheckVal.notEval
        | some bs =>
          if pyTruthy bs then
            ofBool ((lowerList (stripWs bs.data)).isPrefixOf (lowerList (lstripWs t.data)) ||
              (match strFind (lowerList (lstripWs t.data)) (lowerList (stripWs bs.data)) with
               | some i => decide (i ≤ 12)
               | none => false))
          else CheckVal.notEval) := by
  rw [validate_title_truthy ((pyTruthy_iff t).mpr h) b]
  show lookupCheck "starts_with_brand" (titleChecks t b) = _
  rw [lookup_brand]
  cases b with
  | none => rfl
  | some bs => rfl

/-- Witness for C5's amended theorem at a concrete input. -/
theorem C5_brand_check_witness :
    lookupCheck "starts_with_brand"
      (validate_title (some "Hello World") (some "Hello")).checks =
      some CheckVal.tt := by
  rw [C5_brand_check "Hello World" (some "Hello") (by decide)]
  rfl

/-- C6: an absent or empty title yields `pass == false` with violations
exactly `["missing_title"]`, and an absent or empty description yields
`pass == false` with violations exactly `["missing_description"]`; both
are ordinary return values of the total embedded functions, so no
exception is raised. -/
theorem C6_missing_inputs (b : Option String) (t d : Option String)
    (ht : t = none ∨ t = some "") (hd : d = none ∨ d = some "") :
    (validate_title t b).pass = false ∧
    (validate_title t b).violations = ["missing_title"] ∧
    (validate_description d).pass = false ∧
    (validate_description d).violations = ["missing_description"] := by
  have h1 : validate_title t b = missingTitleReport := by
    rcases ht with h | h
    · rw [h]; rfl
    · rw [h]; rfl
  have h2 : validate_description d = missingDescReport := by
    rcases hd with h | h
    · rw [h]; rfl
    · rw [h]; rfl
  rw [h1, h2]
  exact ⟨rfl, rfl, rfl, rfl⟩

/-- Witness for C6 at concrete inputs (absent title, empty description). -/
theorem C6_missing_inputs_witness :
    (validate_title none (some "Acme")).pass = false ∧
    (validate_title none (some "Acme")).violations = ["missing_title"] ∧
    (validate_description (some "")).pass = false ∧
    (validate_description (some "")).violations = ["missing_description"] :=
  C6_missing_inputs (some "Acme") none (some "") (Or.inl rfl) (Or.inr rfl)

/-- C9: validation is deterministic — validate_title,
validate_description and the per-record aggregation are pure functions of
their inputs, so equal inputs give identical reports. -/
theorem C9_deterministic (bm1 bm2 : List (String × String)) (r1 r2 : InputRow)
    (t1 t2 b1 b2 d1 d2 : Option String)
    (hbm : bm1 = bm2) (hr : r1 = r2) (ht : t1 = t2) (hb : b1 = b2) (hd : d1 = d2) :
    validate_title t1 b1 = validate_title t2 b2 ∧
    validate_description d1 = validate_description d2 ∧
    validateRecord bm1 r1 = validateRecord bm2 r2 := by
  subst hbm; subst hr; subst ht; subst hb; subst hd
  exact ⟨rfl, rfl, rfl⟩

/-- Witness for C9 at a concrete record and brand map. -/
theorem C9_deterministic_witness :
    validate_title (some "Acme Bottle 750ml") none =
      validate_title (some "Acme Bottle 750ml") none ∧
    validate_description (some "<p>x</p>") = validate_description (some "<p>x</p>") ∧
    validateRecord [("s1", "Acme")]
        { input_id := some "s1", model := some "m", ok := some true,
          ebay_title := some "Acme Bottle 750ml",
          ebay_description_html := some "<p>x</p>",
          input_tokens := some 1, output_tokens := some 2, total_tokens := some 3 } =
      validateRecord [("s1", "Acme")]
        { input_id := some "s1", model := some "m", ok := some true,
          ebay_title := some "Acme Bottle 750ml",
          ebay_description_html := some "<p>x</p>",
          input_tokens := some 1, output_tokens := some 2, total_tokens := some 3 } :=
  C9_deterministic _ _ _ _ _ _ _ _ _ _ rfl rfl rfl rfl rfl

theorem title_violations_aux (t b : Option String) :
    (pyTruthyO t = true →
      (validate_title t b).violations = falseKeys (validate_title t b).checks) ∧
    (pyTruthyO t = false → (validate_title t b).violations = ["missing_title"]) ∧
    (∀ nm ∈ (validate_title t b).violations,
      lookupCheck nm (validate_title t b).checks ≠ some CheckVal.notEval) := by
  cases t with
  | none =>
    refine ⟨fun h => absurd h (by simp [pyTruthyO]), fun _ => rfl, ?_⟩
    intro nm hnm
    change nm ∈ ["missing_title"] at hnm
    have he : nm = "missing_title" := by simpa using hnm
    subst he
    change lookupCheck "missing_title" missingTitleReport.checks ≠ some CheckVal.notEval
    decide
  | some s =>
    cases hps : pyTruthy s with
    | false =>
      have he : validate_title (some s) b = missingTitleReport :=
        validate_title_falsy hps b
      refine ⟨?_, fun _ => by rw [he]; rfl, ?_⟩
      · intro hcon
        rw [show pyTruthyO (some s) = pyTruthy s from rfl, hps] at hcon
        exact absurd hcon (by simp)
      · intro nm hnm
        rw [he] at hnm ⊢
        change nm ∈ ["missing_title"] at hnm
        have hx : nm = "missing_title" := by simpa using hnm
        subst hx
        decide
    | true =>
      have he := validate_title_truthy hps b
      have hv : (validate_title (some s) b).violations = falseKeys (titleChecks s b) := by
        rw [he]
      have hc : (validate_title (some s) b).checks = titleChecks s b := by rw [he]
      refine ⟨fun _ => by rw [hv, hc], ?_, ?_⟩
      · intro hcon
        rw [show pyTruthyO (some s) = pyTruthy s from rfl, hps] at hcon
        exact absurd hcon (by simp)
      · intro nm hnm
        rw [hv] at hnm
        rw [hc]
        have hnd : ((titleChecks s b).map Prod.fst).Nodup := by
          have hmap : (titleChecks s b).map Prod.fst =
              ["present", "length_le_80", "length_ge_10", "one_line",
               "no_double_spaces", "no_emoji", "no_spam_words", "not_all_caps",
               "starts_with_brand"] := rfl
          rw [hmap]
          decide
        rw [lookup_of_mem_falseKeys hnd hnm]
        simp

theorem desc_violations_aux (d : Option String) :
    (pyTruthyO d = true →
      (validate_description d).violations = falseKeys (validate_description d).checks) ∧
    (pyTruthyO d = false →
      (validate_description d).violations = ["missing_description"]) ∧
    (∀ nm ∈ (validate_description d).violations,
      lookupCheck nm (validate_description d).checks ≠ some CheckVal.notEval) := by
  cases d with
  | none =>
    refine ⟨fun h => absurd h (by simp [pyTruthyO]), fun _ => rfl, ?_⟩
    intro nm hnm
    change nm ∈ ["missing_description"] at hnm
    have he : nm = "missing_description" := by simpa using hnm
    subst he
    change lookupCheck "missing_description" missingDescReport.checks ≠ some CheckVal.notEval
    decide
  | some s =>
    cases hps : pyTruthy s with
    | false =>
      have he : validate_description (some s) = missingDescReport :=
        validate_description_falsy hps
      refine ⟨?_, fun _ => by rw [he]; rfl, ?_⟩
      · intro hcon
        rw [show pyTruthyO (some s) = pyTruthy s from rfl, hps] at hcon
        exact absurd hcon (by simp)
      · intro nm hnm
        rw [he] at hnm ⊢
        change nm ∈ ["missing_description"] at hnm
        have hx : nm = "missing_description" := by simpa using hnm
        subst hx
        decide
    | true =>
      have he := validate_description_truthy hps
      have hv : (validate_description (some s)).violations = falseKeys (descChecks s) := by
        rw [he]
      have hc : (validate_description (some s)).checks = descChecks s := by rw [he]
      refine ⟨fun _ => by rw [hv, hc], ?_, ?_⟩
      · intro hcon
        rw [show pyTruthyO (some s) = pyTruthy s from rfl, hps] at hcon
        exact absurd hcon (by simp)
      · intro nm hnm
        rw [hv] at hnm
        rw [hc]
        have hnd : ((descChecks s).map Prod.fst).Nodup := by
          have hmap : (descChecks s).map Prod.fst =
              ["present", "length_40_to_4000", "lead_paragraph_ok",
               "bullet_count_3_to_8", "no_disallowed_tags", "only_allowed_tags",
               "no_external_links"] := rfl
          rw [hmap]
          decide
        rw [lookup_of_mem_falseKeys hnd hnm]
        simp

/-- C1 counterexample: for the empty title the checks mapping holds
`present == false` (with every other boolean check also false), yet the
violations list is `["missing_title"]`, so it is not the set of check
names whose outcome is false. -/
theorem C1_counterexample :
    ("present", CheckVal.ff) ∈ (validate_title (some "") none).checks ∧
    "present" ∉ (validate_title (some "") none).violations := by
  decide

/-- C1 (amended): for every truthy (non-empty) title and description the
violations list is exactly the check names whose outcome is false, in
mapping order; for an absent or empty input it is exactly
`["missing_title"]` / `["missing_description"]` even though the checks
mapping keeps its all-false defaults; and a check whose outcome is
`not_evaluated` never appears in a violations list. -/
theorem C1_violations (t d b : Option String) :
    (pyTruthyO t = true →
      (validate_title t b).violations = falseKeys (validate_title t b).checks) ∧
    (pyTruthyO t = false → (validate_title t b).violations = ["missing_title"]) ∧
    (∀ nm ∈ (validate_title t b).violations,
      lookupCheck nm (validate_title t b).checks ≠ some CheckVal.notEval) ∧
    (pyTruthyO d = true →
      (validate_description d).violations = falseKeys (validate_description d).checks) ∧
    (pyTruthyO d = false →
      (validate_description d).violations = ["missing_description"]) ∧
    (∀ nm ∈ (validate_description d).violations,
      lookupCheck nm (validate_description d).checks ≠ some CheckVal.notEval) := by
  obtain ⟨a1, a2, a3⟩ := title_violations_aux t b
  obtain ⟨b1, b2, b3⟩ := desc_violations_aux d
  exact ⟨a1, a2, a3, b1, b2, b3⟩

/-- Witness for C1's amended theorem at concrete inputs. -/
theorem C1_violations_witness :
    (validate_title (some "Nice Product Title") none).violations =
      falseKeys (validate_title (some "Nice Product Title") none).checks ∧
    (validate_description (some "")).violations = ["missing_description"] :=
  ⟨(C1_violations (some "Nice Product Title") (some "") none).1 rfl,
   (C1_violations (some "Nice Product Title") (some "") none).2.2.2.2.1 rfl⟩

/-- C7: for every non-empty title, the `one_line` check is true iff the
title contains no line-break character (newline or carriage return). -/
theorem C7_one_line (t : String) (b : Option String) (h : t ≠ "") :
    (lookupCheck "one_line" (validate_title (some t) b).checks = some CheckVal.tt ↔
      ∀ c ∈ t.data, isLineBreak c = false) := by
  have hc : (validate_title (some t) b).checks = titleChecks t b := by
    rw [validate_title_truthy ((pyTruthy_iff t).mpr h) b]
  rw [hc, lookup_one_line]
  constructor
  · intro h1 c hcmem
    have h2 := ofBool_eq_tt.mp (Option.some_inj.mp h1)
    rw [Bool.and_eq_true, Bool.not_eq_true', Bool.not_eq_true'] at h2
    have hn : '\n' ∉ t.data := by simpa using h2.1
    have hr : '\r' ∉ t.data := by simpa using h2.2
    unfold isLineBreak
    rw [Bool.or_eq_false_iff, decide_eq_false_iff_not, decide_eq_false_iff_not]
    exact ⟨fun he => hn (he ▸ hcmem), fun he => hr (he ▸ hcmem)⟩
  · intro h1
    refine Option.some_inj.mpr (ofBool_eq_tt.mpr ?_)
    rw [Bool.and_eq_true, Bool.not_eq_true', Bool.not_eq_true']
    constructor
    · have hn : '\n' ∉ t.data := by
        intro hm
        have hx := h1 '\n' hm
        unfold isLineBreak at hx
        simp at hx
      simpa using hn
    · have hr : '\r' ∉ t.data := by
        intro hm
        have hx := h1 '\r' hm
        unfold isLineBreak at hx
        simp at hx
      simpa using hr

/-- Witness for C7 at a concrete single-line title. -/
theorem C7_one_line_witness :
    (lookupCheck "one_line" (validate_title (some "Hello") none).checks =
        some CheckVal.tt ↔
      ∀ c ∈ ("Hello" : String).data, isLineBreak c = false) :=
  C7_one_line "Hello" none (by decide)

/-- C10: for every non-empty description, the tag names `html` and
`body` (whether written by the caller or not) never appear in
`found_non_whitelisted_tags`, and the `only_allowed_tags` check is
exactly the emptiness of that list, so they never make it false — even
though neither name is on the allow list. -/
theorem C10_neutral_tags (s : String) (h : s ≠ "") :
    "html" ∉ (validate_description (some s)).found_non_whitelisted_tags.getD [] ∧
    "body" ∉ (validate_description (some s)).found_non_whitelisted_tags.getD [] ∧
    lookupCheck "only_allowed_tags" (validate_description (some s)).checks =
      some (ofBool
        ((validate_description (some s)).found_non_whitelisted_tags.getD []).isEmpty) ∧
    "html" ∉ ALLOWED_TAGS ∧ "body" ∉ ALLOWED_TAGS := by
  have he := validate_description_truthy ((pyTruthy_iff s).mpr h)
  have hf : (validate_description (some s)).found_non_whitelisted_tags =
      some (only_allowed_tags (descSoup s)) := by rw [he]
  have hc : (validate_description (some s)).checks = descChecks s := by rw [he]
  rw [hf, hc]
  refine ⟨?_, ?_, ?_, by decide, by decide⟩
  · exact neutral_not_mem_only_allowed (by decide)
  · exact neutral_not_mem_only_allowed (by decide)
  · rw [lookup_only]
    rfl

/-- Witness for C10 at a description written with literal html and body
tags around an allow-listed element. -/
theorem C10_neutral_tags_witness :
    "html" ∉ (validate_description
      (some "<html><body><b>hi</b></body></html>")).found_non_whitelisted_tags.getD [] ∧
    "body" ∉ (validate_description
      (some "<html><body><b>hi</b></body></html>")).found_non_whitelisted_tags.getD [] ∧
    lookupCheck "only_allowed_tags"
      (validate_description (some "<html><body><b>hi</b></body></html>")).checks =
      some (ofBool ((validate_description
        (some "<html><body><b>hi</b></body></html>")).found_non_whitelisted_tags.getD
          []).isEmpty) ∧
    "html" ∉ ALLOWED_TAGS ∧ "body" ∉ ALLOWED_TAGS :=
  C10_neutral_tags "<html><body><b>hi</b></body></html>" (by decide)

/-- C2: for every description the checks `lead_paragraph_ok` and
`only_allowed_tags` are never both true (a lead block needs a `p` tag,
which is itself outside the allow list), and consequently
`validate_description` never returns `pass == true` for any input. -/
theorem C2_lead_excludes_allowed (h : Option String) :
    ¬(lookupCheck "lead_paragraph_ok" (validate_description h).checks =
        some CheckVal.tt ∧
      lookupCheck "only_allowed_tags" (validate_description h).checks =
        some CheckVal.tt) ∧
    (validate_description h).pass = false := by
  cases h with
  | none => exact ⟨by decide, rfl⟩
  | some s =>
    cases hps : pyTruthy s with
    | false =>
      have he := validate_description_falsy hps
      rw [he]
      exact ⟨by decide, rfl⟩
    | true =>
      have he := validate_description_truthy hps
      have hc : (validate_description (some s)).checks = descChecks s := by rw [he]
      have hp : (validate_description (some s)).pass =
          (descChecks s).all fun p => p.2 == CheckVal.tt := by rw [he]
      constructor
      · rintro ⟨h1, h2⟩
        rw [hc, lookup_lead] at h1
        rw [hc, lookup_only] at h2
        have h40 : 40 ≤ first_paragraph_len (descSoup s) :=
          of_decide_eq_true (ofBool_eq_tt.mp (Option.some_inj.mp h1))
        have hne := only_allowed_nonempty_of_lead h40
        have hx := ofBool_eq_tt.mp (Option.some_inj.mp h2)
        rw [hne] at hx
        exact absurd hx (by decide)
      · rw [hp]
        by_cases h40 : 40 ≤ first_paragraph_len (descSoup s)
        · have hff : lookupCheck "only_allowed_tags" (descChecks s) =
              some CheckVal.ff := by
            rw [lookup_only, only_allowed_nonempty_of_lead h40]
            rfl
          exact all_tt_false_of_lookup_ff hff
        · have hff : lookupCheck "lead_paragraph_ok" (descChecks s) =
              some CheckVal.ff := by
            rw [lookup_lead, decide_eq_false_iff_not.mpr h40]
            rfl
          exact all_tt_false_of_lookup_ff hff

/-- Witness for C2 at a concrete description with a long lead paragraph. -/
theorem C2_lead_excludes_allowed_witness :
    ¬(lookupCheck "lead_paragraph_ok"
        (validate_description
          (some "<p>This paragraph is long enough to be a lead block.</p>")).checks =
        some CheckVal.tt ∧
      lookupCheck "only_allowed_tags"
        (validate_description
          (some "<p>This paragraph is long enough to be a lead block.</p>")).checks =
        some CheckVal.tt) ∧
    (validate_description
      (some "<p>This paragraph is long enough to be a lead block.</p>")).pass = false :=
  C2_lead_excludes_allowed (some "<p>This paragraph is long enough to be a lead block.</p>")

/-- C8: `normalize_whitespace` is idempotent, and its result contains no
two adjacent whitespace characters (hence no run of two or more) and no
leading or trailing whitespace. -/
theorem C8_normalize_whitespace (s : String) :
    normalize_whitespace (normalize_whitespace s) = normalize_whitespace s ∧
    List.Chain' (fun a b => ¬(pyWs a = true ∧ pyWs b = true))
      (normalize_whitespace s).data ∧
    (normalize_whitespace s).data.takeWhile pyWs = [] ∧
    (normalize_whitespace s).data.reverse.takeWhile pyWs = [] := by
  have hws : ∀ c ∈ stripWs (subWsRuns s.data), pyWs c = true → c = ' ' :=
    fun c hc => subWsRuns_allWsSpace c (stripWs_subset hc)
  have hchain : List.Chain' (fun a b => ¬(a = ' ' ∧ b = ' '))
      (stripWs (subWsRuns s.data)) :=
    chain'_stripWs (chain'_squeezeSpaces (s.data.map fun c => if pyWs c then ' ' else c))
  have h1 : (stripWs (subWsRuns s.data)).takeWhile pyWs = [] :=
    takeWhile_stripWs_nil (subWsRuns s.data)
  have h2 : (stripWs (subWsRuns s.data)).reverse.takeWhile pyWs = [] :=
    takeWhile_reverse_stripWs_nil (subWsRuns s.data)
  refine ⟨?_, ?_, h1, h2⟩
  · rw [String.ext_iff]
    show stripWs (subWsRuns (stripWs (subWsRuns s.data))) = stripWs (subWsRuns s.data)
    have hsq : subWsRuns (stripWs (subWsRuns s.data)) = stripWs (subWsRuns s.data) := by
      show squeezeSpaces
          ((stripWs (subWsRuns s.data)).map fun c => if pyWs c then ' ' else c) =
        stripWs (subWsRuns s.data)
      rw [mapWs_eq_self hws]
      exact squeezeSpaces_eq_self hchain
    rw [hsq]
    exact stripWs_eq_self h1 h2
  · exact chain'_ws_of_space hws hchain
